import Mathlib

/-!
# Verification of the data retrieval and normalization pipeline of `app.py`

Shallow embedding of the core pipeline of the Executive SCP Savings
Dashboard (`app.py`): the OneDrive/local source resolver
(`load_data_from_onedrive`, `convert_onedrive_url`), the module-level
normalization block (column rename, numeric coercion, date coercion),
and the default contract-start date filter.

External effects (HTTP transport, spreadsheet byte-stream parsing, the
local file system) are modelled as explicit inputs describing their
observable outcomes.  Pandas string-to-number and string-to-date parsing
are abstracted by simple executable parsers: the properties under study
depend only on which values parse and on the coercion policy applied to
parse failures, not on the parser internals.
-/

set_option autoImplicit false

namespace App

/-- A cell of a tabular dataset: a numeric value, a raw string, a date
(days since an epoch), or the missing-value marker (pandas NaN/NaT/None). -/
inductive Cell where
  | num (v : ℤ)
  | str (s : String)
  | date (d : ℤ)
  | null
deriving DecidableEq

/-- A tabular dataset, mirroring a pandas DataFrame: a list of column
names and a list of rows, each row a list of cells in header order. -/
structure Dataset where
  header : List String
  rows : List (List Cell)
deriving DecidableEq

/-- The indices at which `name` occurs in a header list (pandas column
lookup: `df[name]` needs exactly one occurrence to yield a Series). -/
def colIdxs (h : List String) (name : String) : List ℕ :=
  match h with
  | [] => []
  | s :: t =>
    if s = name then 0 :: (colIdxs t name).map (· + 1)
    else (colIdxs t name).map (· + 1)

/-- Replace the cell at index `i` of a row by `f` of that cell
(embeds a single-column elementwise assignment `df[col] = f(df[col])`
at one row); out-of-range indices leave the row unchanged. -/
def updAt (f : Cell → Cell) : ℕ → List Cell → List Cell
  | _, [] => []
  | 0, c :: cs => f c :: cs
  | n + 1, c :: cs => c :: updAt f n cs

/-- Apply `updAt` when an optional column index is present. -/
def optUpd (f : Cell → Cell) : Option ℕ → List Cell → List Cell
  | none, r => r
  | some i, r => updAt f i r

/-- Columnwise assignment over all rows: `df[col] = f(df[col])`. -/
def setColWith (f : Cell → Cell) (i : ℕ) (rows : List (List Cell)) :
    List (List Cell) :=
  rows.map (updAt f i)

/-- The fixed rename map of the normalization block:
`"Difference (PA)-Finance" ↦ "Savings_Finance"`,
`"Difference (PA) -SCP" ↦ "Savings_SCP"`; all other names unchanged. -/
def renameCol (s : String) : String :=
  if s = "Difference (PA)-Finance" then "Savings_Finance"
  else if s = "Difference (PA) -SCP" then "Savings_SCP"
  else s

/-- `df.rename(columns=..., inplace=True)`: relabels the header only. -/
def renameColumns (d : Dataset) : Dataset :=
  ⟨d.header.map renameCol, d.rows⟩

/-- Digits of a string interpreted as a base-10 natural number. -/
def digitsToNat (cs : List Char) : ℕ :=
  cs.foldl (fun a c => a * 10 + (c.toNat - 48)) 0

/-- Whether every character of the list is a decimal digit. -/
def allDigits (cs : List Char) : Bool :=
  cs.all (fun c => c.isDigit)

/-- Abstraction of the numeric parser inside `pd.to_numeric`: an optional
sign followed by at least one digit parses, anything else fails.  The
claims depend only on parse success/failure, not on the accepted syntax. -/
def parseNumStr (s : String) : Option ℤ :=
  match s.data with
  | [] => none
  | c :: rest =>
    if c = '-' then
      if rest ≠ [] ∧ allDigits rest then some (-(digitsToNat rest : ℤ))
      else none
    else if allDigits (c :: rest) then some ((digitsToNat (c :: rest) : ℤ))
    else none

/-- Abstraction of the date parser inside `pd.to_datetime`: a nonempty
all-digit string parses (as a day number), anything else fails.  The
claims depend only on parse success/failure. -/
def parseDateStr (s : String) : Option ℤ :=
  match s.data with
  | [] => none
  | c :: rest =>
    if allDigits (c :: rest) then some ((digitsToNat (c :: rest) : ℤ))
    else none

/-- One cell under `pd.to_numeric(col, errors="coerce").fillna(0)`:
numbers pass through, numeric strings convert, every failed conversion
(non-numeric string, date object, missing value) becomes NaN and then 0. -/
def toNumericFill0 (c : Cell) : Cell :=
  match c with
  | .num v => .num v
  | .str s =>
    match parseNumStr s with
    | some v => .num v
    | none => .num 0
  | .date _ => .num 0
  | .null => .num 0

/-- One cell under `pd.to_datetime(col, errors="coerce")`: dates pass
through, parseable strings convert, unparseable strings and missing
values become NaT; a bare number is read as an epoch offset. -/
def toDatetimeCoerce (c : Cell) : Cell :=
  match c with
  | .date d => .date d
  | .str s =>
    match parseDateStr s with
    | some d => .date d
    | none => .null
  | .num v => .date v
  | .null => .null

/-- `df[name] = pd.to_numeric(df[name], errors="coerce").fillna(0)`:
pandas raises KeyError when the column is absent and TypeError when the
label is duplicated (the lookup yields a DataFrame, not a Series);
otherwise the unique column is coerced elementwise. -/
def coerceNumericCol (name : String) (d : Dataset) : Except String Dataset :=
  match colIdxs d.header name with
  | [i] => .ok ⟨d.header, setColWith toNumericFill0 i d.rows⟩
  | [] => .error ("KeyError: " ++ name)
  | _ => .error ("TypeError: duplicate column " ++ name)

/-- `if name in df.columns: df[name] = pd.to_datetime(df[name],
errors="coerce")`: an absent column is skipped, a duplicated label
raises, a unique column is coerced elementwise. -/
def coerceDateCol (name : String) (d : Dataset) : Except String Dataset :=
  match colIdxs d.header name with
  | [] => .ok d
  | [i] => .ok ⟨d.header, setColWith toDatetimeCoerce i d.rows⟩
  | _ => .error ("TypeError: duplicate column " ++ name)

/-- The module-level normalization block of `app.py` (run after a
successful load): rename the two financial columns, coerce both to
numeric with 0 for failures, then coerce the two contract date columns
when present.  Uncaught pandas errors surface as `.error`. -/
def normalize (d : Dataset) : Except String Dataset := do
  let d1 := renameColumns d
  let d2 ← coerceNumericCol "Savings_Finance" d1
  let d3 ← coerceNumericCol "Savings_SCP" d2
  let d4 ← coerceDateCol "Contract Start" d3
  coerceDateCol "Contract End" d4

/-- Observable content of an HTTP response body, as far as the resolver
could inspect it: its byte size, whether it starts with the ZIP magic
bytes of modern spreadsheet formats, and the outcome of
`pd.read_excel(BytesIO(body), sheet_name="Savings_WIP_Data")`
(`some d` when parsing succeeds and the named sheet exists, `none` when
`read_excel` raises). -/
structure Payload where
  size : ℕ
  hasZipSignature : Bool
  parseSheet : Option Dataset
deriving DecidableEq

/-- Outcome of `requests.get(onedrive_url, timeout=30)`: either an
exception (timeout, connection error, ...) or a response with a status
code and a body. -/
inductive TransportOutcome where
  | exn (msg : String)
  | resp (status : ℕ) (body : Payload)
deriving DecidableEq

/-- Outcome of `pd.read_excel("SCP_Savings_FY26_dummy_v3.xlsx",
sheet_name="Savings_WIP_Data")`: success, FileNotFoundError (file
absent), or any other parse error (file present but unreadable). -/
inductive LocalOutcome where
  | ok (d : Dataset)
  | fileMissing
  | unreadable (msg : String)
deriving DecidableEq

/-- The external world of one load attempt: the remote transport outcome
for the configured URL and the local fallback file's outcome. -/
structure FetchEnv where
  remote : TransportOutcome
  localFile : LocalOutcome
deriving DecidableEq

/-- The local-fallback block of `load_data_from_onedrive`: a bare
`except:` turns every local failure, file-missing or unreadable alike,
into the same terminal `(None, message)` result. -/
def fallbackLocal : LocalOutcome → Option Dataset × String
  | .ok df => (some df, "Using local file (OneDrive integration pending)")
  | .fileMissing => (none, "Unable to load data from OneDrive or local file")
  | .unreadable _ => (none, "Unable to load data from OneDrive or local file")

/-- `load_data_from_onedrive` (`app.py`, lines 145-170): try
`requests.get` on the URL; on status 200 parse the payload and return it
with a success message; any exception in that attempt is swallowed by a
bare `except: pass`, and a non-200 status simply falls through; then try
the fixed local file, whose own failure yields the terminal message.
The outer `except Exception` handler is unreachable: every statement it
guards is already handled by the inner bare `except` blocks. -/
def load_data_from_onedrive (env : FetchEnv) : Option Dataset × String :=
  match env.remote with
  | .resp status body =>
    if status = 200 then
      match body.parseSheet with
      | some df => (some df, "OneDrive file loaded successfully")
      | none => fallbackLocal env.localFile
    else fallbackLocal env.localFile
  | .exn _ => fallbackLocal env.localFile

/-- The acceptance test the remote attempt actually implements: a result
is produced exactly when the status is 200 and the named sheet parses. -/
def strategyValid (t : TransportOutcome) : Option Dataset :=
  match t with
  | .resp status body => if status = 200 then body.parseSheet else none
  | .exn _ => none

/-- Whether `pat` is a prefix of the second list. -/
def prefixMatches : List Char → List Char → Bool
  | [], _ => true
  | _ :: _, [] => false
  | p :: ps, c :: cs => p = c && prefixMatches ps cs

/-- Whether `pat` occurs as a contiguous sublist of the second list. -/
def containsSub (pat : List Char) : List Char → Bool
  | [] => pat.isEmpty
  | c :: cs => prefixMatches pat (c :: cs) || containsSub pat cs

/-- Whether `needle` occurs as a substring of `hay` (Python `in`). -/
def strContains (hay needle : String) : Bool :=
  containsSub needle.data hay.data

/-- `convert_onedrive_url` (`app.py`, lines 131-141): when the sharing
URL contains `"1drv.ms"`, rewrite it by two literal substring
replacements; otherwise return it unchanged.  The `except` branch is
unreachable (string replacement never raises). -/
def convert_onedrive_url (share_url : String) : String :=
  if strContains share_url "1drv.ms" then
    (share_url.replace "1drv.ms/x/" "api.onedrive.com/v1.0/shares/").replace
      "?e=" "/driveItem/content?access_token="
  else share_url

/-- The dates occurring in a column (pandas min/max skip NaT). -/
def dateVals (cs : List Cell) : List ℤ :=
  cs.filterMap (fun c => match c with | .date v => some v | _ => none)

/-- `df[col].min()` on a datetime column: NaT (`none`) when no date is
present, otherwise the least date. -/
def seriesMin (cs : List Cell) : Option ℤ := (dateVals cs).min?

/-- `df[col].max()` on a datetime column. -/
def seriesMax (cs : List Cell) : Option ℤ := (dateVals cs).max?

/-- The `Contract Start` column of `df` read at column index `i`. -/
def startCol (d : Dataset) (i : ℕ) : List Cell :=
  d.rows.map (fun r => r.getD i Cell.null)

/-- The default value of the `Contract Start` date widget (`app.py`,
lines 235-248): when both column min and max are non-NaT the widget is
created with the column minimum as its value (the user changing
nothing), otherwise the filter is `None`. -/
def start_date_filter (d : Dataset) (i : ℕ) : Option ℤ :=
  match seriesMin (startCol d i), seriesMax (startCol d i) with
  | some mn, some _ => some mn
  | _, _ => none

/-- The vectorized comparison `df["Contract Start"] >= pd.Timestamp(b)`
at one cell: false at NaT (and at any non-date cell). -/
def cellGe (c : Cell) (b : ℤ) : Bool :=
  match c with
  | .date v => decide (b ≤ v)
  | _ => false

/-- The start-date filter application (`app.py`, lines 308-309): when a
filter value exists (a `datetime.date` is always truthy), keep exactly
the rows whose `Contract Start` cell compares `>=` the bound. -/
def applyStartDateFilter (d : Dataset) (i : ℕ) : Dataset :=
  match start_date_filter d i with
  | some b => ⟨d.header, d.rows.filter (fun r => cellGe (r.getD i Cell.null) b)⟩
  | none => d

/-- The composite per-row effect of a successful normalization run:
numeric coercion at the two financial column indices, then date coercion
at the contract date column indices that are present. -/
def rowTransform (iF iS : ℕ) (oCS oCE : Option ℕ) (r : List Cell) : List Cell :=
  optUpd toDatetimeCoerce oCE (optUpd toDatetimeCoerce oCS
    (updAt toNumericFill0 iS (updAt toNumericFill0 iF r)))

/-- Whether `pd.to_numeric(·, errors="coerce")` yields NaN at this cell:
true exactly for non-numeric strings, dates and missing values. -/
def numConvFails (c : Cell) : Bool :=
  match c with
  | .num _ => false
  | .str s => (parseNumStr s).isNone
  | .date _ => true
  | .null => true

/-- The cell of `d` at row `j`, column index `i`. -/
def cellAt (d : Dataset) (j i : ℕ) : Cell :=
  (d.rows.getD j []).getD i Cell.null

/-- A small raw dataset: the two source financial columns (one numeric
string and one non-numeric string among the values), a text column, and
a `Contract Start` column with a parseable date, an unparseable date and
a missing value. -/
def sampleRaw : Dataset :=
  ⟨["Project", "Difference (PA)-Finance", "Difference (PA) -SCP", "Contract Start"],
   [[Cell.str "p1", Cell.num 5, Cell.str "7", Cell.str "100"],
    [Cell.str "p2", Cell.str "abc", Cell.null, Cell.str "garbage"],
    [Cell.str "p3", Cell.num (-3), Cell.num 2, Cell.null]]⟩

/-- The normalized form of `sampleRaw`. -/
def sampleNormalized : Dataset :=
  ⟨["Project", "Savings_Finance", "Savings_SCP", "Contract Start"],
   [[Cell.str "p1", Cell.num 5, Cell.num 7, Cell.date 100],
    [Cell.str "p2", Cell.num 0, Cell.num 0, Cell.null],
    [Cell.str "p3", Cell.num (-3), Cell.num 2, Cell.null]]⟩

/-- A parsed sheet with a single row. -/
def tinySheet : Dataset := ⟨["Savings_Finance"], [[Cell.num 4]]⟩

/-- A 200-response body that is 10 bytes long and does not carry the ZIP
magic bytes, yet parses (e.g. a minimal legacy-format spreadsheet). -/
def tinyPayload : Payload := ⟨10, false, some tinySheet⟩

/-- A parsed sheet whose required sheet yielded zero rows. -/
def emptySheet : Dataset := ⟨["Savings_Finance", "Savings_SCP"], []⟩

/-- A non-empty dataset available from the local fallback file. -/
def localAlternative : Dataset := ⟨["Savings_Finance"], [[Cell.num 1]]⟩

/-- A normalized `Contract Start` column with two dates and one null. -/
def filterSample : Dataset :=
  ⟨["Contract Start"], [[Cell.date 5], [Cell.null], [Cell.date 9]]⟩

/-! ## Helper lemmas -/

/-- `colIdxs` lists exactly the positions holding `name`. -/
theorem mem_colIdxs (h : List String) (name : String) (i : ℕ) :
    i ∈ colIdxs h name ↔ h.get? i = some name := by
  induction h generalizing i with
  | nil => simp [colIdxs]
  | cons s t ih =>
    cases i with
    | zero =>
      by_cases hs : s = name
      · simp [colIdxs, hs]
      · have hs' : ¬name = s := fun hh => hs hh.symm
        simp [colIdxs, hs, hs', List.mem_map]
    | succ n =>
      by_cases hs : s = name <;>
        simp [colIdxs, hs, List.mem_map, ih n]

/-- `colIdxs` is empty exactly when the name is absent. -/
theorem colIdxs_eq_nil (h : List String) (name : String) :
    colIdxs h name = [] ↔ name ∉ h := by
  induction h with
  | nil => simp [colIdxs]
  | cons s t ih =>
    by_cases hs : s = name
    · subst hs
      simp [colIdxs]
    · have hs' : ¬name = s := fun hh => hs hh.symm
      simp [colIdxs, hs, hs', List.map_eq_nil_iff, ih]

/-- A unique column position holds the column's name. -/
theorem colIdxs_singleton_get {h : List String} {name : String} {i : ℕ}
    (hh : colIdxs h name = [i]) : h.get? i = some name := by
  have : i ∈ colIdxs h name := by rw [hh]; exact List.mem_singleton_self i
  exact (mem_colIdxs h name i).1 this

/-- Unique positions of distinct column names are distinct. -/
theorem colIdxs_disjoint {h : List String} {n₁ n₂ : String} {i j : ℕ}
    (h₁ : colIdxs h n₁ = [i]) (h₂ : colIdxs h n₂ = [j]) (hn : n₁ ≠ n₂) :
    i ≠ j := by
  intro hij
  subst hij
  have e₁ := colIdxs_singleton_get h₁
  have e₂ := colIdxs_singleton_get h₂
  rw [e₁] at e₂
  exact hn (Option.some.inj e₂)

/-- A unique column position is within the header. -/
theorem colIdxs_singleton_lt {h : List String} {name : String} {i : ℕ}
    (hh : colIdxs h name = [i]) : i < h.length := by
  have := colIdxs_singleton_get hh
  exact List.get?_eq_some.1 this |>.1

theorem updAt_nil (f : Cell → Cell) (i : ℕ) : updAt f i [] = [] := by
  cases i <;> rfl

theorem updAt_length (f : Cell → Cell) (i : ℕ) (r : List Cell) :
    (updAt f i r).length = r.length := by
  induction r generalizing i with
  | nil => rw [updAt_nil]
  | cons c cs ih =>
    cases i with
    | zero => rfl
    | succ n => simpa [updAt] using ih n

theorem updAt_getD_self (f : Cell → Cell) (r : List Cell) (i : ℕ)
    (h : i < r.length) :
    (updAt f i r).getD i Cell.null = f (r.getD i Cell.null) := by
  induction r generalizing i with
  | nil => simp at h
  | cons c cs ih =>
    cases i with
    | zero => rfl
    | succ n => simpa [updAt] using ih n (by simpa using h)

theorem updAt_getD_ne (f : Cell → Cell) (r : List Cell) (i j : ℕ)
    (h : j ≠ i) :
    (updAt f i r).getD j Cell.null = r.getD j Cell.null := by
  induction r generalizing i j with
  | nil => rw [updAt_nil]
  | cons c cs ih =>
    cases i with
    | zero =>
      cases j with
      | zero => exact absurd rfl h
      | succ m => rfl
    | succ n =>
      cases j with
      | zero => rfl
      | succ m => simpa [updAt] using ih n m (by omega)

theorem updAt_get? (f : Cell → Cell) (r : List Cell) (i j : ℕ) :
    (updAt f i r).get? j = if j = i then (r.get? j).map f else r.get? j := by
  induction r generalizing i j with
  | nil => simp [updAt_nil]
  | cons c cs ih =>
    cases i with
    | zero =>
      cases j with
      | zero => simp [updAt]
      | succ m => simp [updAt]
    | succ n =>
      cases j with
      | zero => simp [updAt]
      | succ m => simpa [updAt, Nat.succ_eq_add_one] using ih n m

theorem updAt_comm (f g : Cell → Cell) (i j : ℕ) (hij : i ≠ j)
    (r : List Cell) :
    updAt f i (updAt g j r) = updAt g j (updAt f i r) := by
  induction r generalizing i j with
  | nil => rw [updAt_nil, updAt_nil, updAt_nil]
  | cons c cs ih =>
    cases i with
    | zero =>
      cases j with
      | zero => exact absurd rfl hij
      | succ m => rfl
    | succ n =>
      cases j with
      | zero => rfl
      | succ m => simp [updAt, ih n m (by omega)]

theorem updAt_updAt_same (f : Cell → Cell) (hf : ∀ x, f (f x) = f x)
    (i : ℕ) (r : List Cell) :
    updAt f i (updAt f i r) = updAt f i r := by
  induction r generalizing i with
  | nil => rw [updAt_nil, updAt_nil]
  | cons c cs ih =>
    cases i with
    | zero => simp [updAt, hf]
    | succ n => simp [updAt, ih n]

theorem optUpd_updAt_comm (f g : Cell → Cell) (o : Option ℕ) (j : ℕ)
    (h : ∀ i, o = some i → i ≠ j) (r : List Cell) :
    optUpd f o (updAt g j r) = updAt g j (optUpd f o r) := by
  cases o with
  | none => rfl
  | some i => exact updAt_comm f g i j (h i rfl) r

theorem optUpd_optUpd_comm (f g : Cell → Cell) (o o' : Option ℕ)
    (h : ∀ i i', o = some i → o' = some i' → i ≠ i') (r : List Cell) :
    optUpd f o (optUpd g o' r) = optUpd g o' (optUpd f o r) := by
  cases o with
  | none => rfl
  | some i =>
    cases o' with
    | none => rfl
    | some i' => exact updAt_comm f g i i' (h i i' rfl rfl) r

theorem optUpd_idem (f : Cell → Cell) (hf : ∀ x, f (f x) = f x)
    (o : Option ℕ) (r : List Cell) :
    optUpd f o (optUpd f o r) = optUpd f o r := by
  cases o with
  | none => rfl
  | some i => exact updAt_updAt_same f hf i r

theorem optUpd_length (f : Cell → Cell) (o : Option ℕ) (r : List Cell) :
    (optUpd f o r).length = r.length := by
  cases o with
  | none => rfl
  | some i => exact updAt_length f i r

theorem optUpd_getD_ne (f : Cell → Cell) (o : Option ℕ) (r : List Cell)
    (j : ℕ) (h : ∀ i, o = some i → j ≠ i) :
    (optUpd f o r).getD j Cell.null = r.getD j Cell.null := by
  cases o with
  | none => rfl
  | some i => exact updAt_getD_ne f r i j (h i rfl)

/-- Numeric coercion with zero-fill is idempotent on cells. -/
theorem toNumericFill0_idem (c : Cell) :
    toNumericFill0 (toNumericFill0 c) = toNumericFill0 c := by
  cases c with
  | num v => rfl
  | str s =>
    cases hp : parseNumStr s <;> simp [toNumericFill0, hp]
  | date d => rfl
  | null => rfl

/-- Date coercion is idempotent on cells. -/
theorem toDatetimeCoerce_idem (c : Cell) :
    toDatetimeCoerce (toDatetimeCoerce c) = toDatetimeCoerce c := by
  cases c with
  | num v => rfl
  | str s =>
    cases hp : parseDateStr s <;> simp [toDatetimeCoerce, hp]
  | date d => rfl
  | null => rfl

/-- The rename map is idempotent: canonical names are not source names. -/
theorem renameCol_idem (s : String) :
    renameCol (renameCol s) = renameCol s := by
  unfold renameCol
  by_cases h₁ : s = "Difference (PA)-Finance"
  · simp [h₁]
  · by_cases h₂ : s = "Difference (PA) -SCP" <;> simp [h₁, h₂]

/-- Characterization of a successful normalization run: with the two
financial columns unique after renaming and the contract date columns
absent or unique, `normalize` succeeds, keeps the renamed header, and
maps `rowTransform` over the rows. -/
theorem normalize_eq_ok (d : Dataset) (iF iS : ℕ) (oCS oCE : Option ℕ)
    (hF : colIdxs (d.header.map renameCol) "Savings_Finance" = [iF])
    (hS : colIdxs (d.header.map renameCol) "Savings_SCP" = [iS])
    (hCS : colIdxs (d.header.map renameCol) "Contract Start"
      = (match oCS with | none => [] | some i => [i]))
    (hCE : colIdxs (d.header.map renameCol) "Contract End"
      = (match oCE with | none => [] | some i => [i])) :
    normalize d = .ok ⟨d.header.map renameCol,
      d.rows.map (rowTransform iF iS oCS oCE)⟩ := by
  cases oCS <;> cases oCE <;>
    simp_all [normalize, renameColumns, coerceNumericCol, coerceDateCol,
      setColWith, rowTransform, optUpd, List.map_map, Function.comp,
      Bind.bind, Except.bind]

/-- The per-row normalization effect is idempotent when the touched
column indices are pairwise distinct. -/
theorem rowTransform_idem (iF iS : ℕ) (oCS oCE : Option ℕ)
    (hFS : iF ≠ iS)
    (hFCS : ∀ i, oCS = some i → i ≠ iF)
    (hFCE : ∀ i, oCE = some i → i ≠ iF)
    (hSCS : ∀ i, oCS = some i → i ≠ iS)
    (hSCE : ∀ i, oCE = some i → i ≠ iS)
    (hCSCE : ∀ i j, oCS = some i → oCE = some j → j ≠ i)
    (r : List Cell) :
    rowTransform iF iS oCS oCE (rowTransform iF iS oCS oCE r)
      = rowTransform iF iS oCS oCE r := by
  have hA : updAt toNumericFill0 iF (rowTransform iF iS oCS oCE r)
      = rowTransform iF iS oCS oCE r := by
    unfold rowTransform
    rw [← optUpd_updAt_comm toDatetimeCoerce toNumericFill0 oCE iF hFCE,
      ← optUpd_updAt_comm toDatetimeCoerce toNumericFill0 oCS iF hFCS,
      updAt_comm toNumericFill0 toNumericFill0 iF iS hFS,
      updAt_updAt_same toNumericFill0 toNumericFill0_idem]
  have hB : updAt toNumericFill0 iS (rowTransform iF iS oCS oCE r)
      = rowTransform iF iS oCS oCE r := by
    unfold rowTransform
    rw [← optUpd_updAt_comm toDatetimeCoerce toNumericFill0 oCE iS hSCE,
      ← optUpd_updAt_comm toDatetimeCoerce toNumericFill0 oCS iS hSCS,
      updAt_updAt_same toNumericFill0 toNumericFill0_idem]
  have hC : optUpd toDatetimeCoerce oCS (rowTransform iF iS oCS oCE r)
      = rowTransform iF iS oCS oCE r := by
    unfold rowTransform
    rw [← optUpd_optUpd_comm toDatetimeCoerce toDatetimeCoerce oCE oCS
        (fun i j hi hj => hCSCE j i hj hi),
      optUpd_idem toDatetimeCoerce toDatetimeCoerce_idem]
  have hD : optUpd toDatetimeCoerce oCE (rowTransform iF iS oCS oCE r)
      = rowTransform iF iS oCS oCE r := by
    conv_lhs => rw [rowTransform]
    rw [optUpd_idem toDatetimeCoerce toDatetimeCoerce_idem]
    rfl
  calc rowTransform iF iS oCS oCE (rowTransform iF iS oCS oCE r)
      = optUpd toDatetimeCoerce oCE (optUpd toDatetimeCoerce oCS
          (updAt toNumericFill0 iS (updAt toNumericFill0 iF
            (rowTransform iF iS oCS oCE r)))) := rfl
    _ = rowTransform iF iS oCS oCE r := by rw [hA, hB, hC, hD]

/-- A valid remote result short-circuits the resolver. -/
theorem load_valid_eq (t : TransportOutcome) (lf : LocalOutcome) (df : Dataset)
    (h : strategyValid t = some df) :
    load_data_from_onedrive ⟨t, lf⟩
      = (some df, "OneDrive file loaded successfully") := by
  cases t with
  | exn m => simp [strategyValid] at h
  | resp s b =>
    unfold strategyValid at h
    by_cases hs : s = 200
    · subst hs
      simp at h
      simp [load_data_from_onedrive, h]
    · simp [hs] at h

/-- A failed remote attempt makes the resolver run the local fallback. -/
theorem load_invalid_eq (t : TransportOutcome) (lf : LocalOutcome)
    (h : strategyValid t = none) :
    load_data_from_onedrive ⟨t, lf⟩ = fallbackLocal lf := by
  cases t with
  | exn m => rfl
  | resp s b =>
    unfold strategyValid at h
    by_cases hs : s = 200
    · subst hs
      simp at h
      simp [load_data_from_onedrive, h]
    · simp [load_data_from_onedrive, hs]

/-! ## Claim theorems -/

/-- C1: the resolver evaluates its remote retrieval strategy first; a
valid remote result is returned at once with the success message, with
the local outcome never consulted, while any transport or parse failure
(exception, non-200 status, unparseable payload) is swallowed — the
resolver returns normally with the local-fallback result instead of
propagating an error, and the local fallback is reached only after the
remote strategy has failed. -/
theorem C1_remote_first_fallback_last (t : TransportOutcome) (lf : LocalOutcome) :
    (∀ df, strategyValid t = some df →
      load_data_from_onedrive ⟨t, lf⟩
        = (some df, "OneDrive file loaded successfully"))
    ∧ (strategyValid t = none →
      load_data_from_onedrive ⟨t, lf⟩ = fallbackLocal lf) :=
  ⟨fun df h => load_valid_eq t lf df h, fun h => load_invalid_eq t lf h⟩

/-- C1 witness: a concrete valid remote payload is returned untouched by
the (available) local alternative, and a concrete timeout reaches the
local fallback. -/
theorem C1_remote_first_fallback_last_witness :
    load_data_from_onedrive
        ⟨.resp 200 ⟨20000, true, some tinySheet⟩, .ok localAlternative⟩
      = (some tinySheet, "OneDrive file loaded successfully")
    ∧ load_data_from_onedrive ⟨.exn "ReadTimeout", .fileMissing⟩
      = fallbackLocal .fileMissing :=
  ⟨(C1_remote_first_fallback_last (.resp 200 ⟨20000, true, some tinySheet⟩)
      (.ok localAlternative)).1 tinySheet rfl,
   (C1_remote_first_fallback_last (.exn "ReadTimeout") .fileMissing).2 rfl⟩

/-- C2 counterexample: a 200 response whose required sheet parsed with
zero rows is returned as a success — the code does not treat the empty
extraction as a strategy failure even though a non-empty local
alternative was available. -/
theorem C2_zero_rows_counterexample :
    emptySheet.rows.length = 0
    ∧ load_data_from_onedrive
        ⟨.resp 200 ⟨20000, true, some emptySheet⟩, .ok localAlternative⟩
      = (some emptySheet, "OneDrive file loaded successfully") :=
  ⟨rfl, rfl⟩

/-- C2 amended: a remote payload whose required sheet parses successfully
is returned as a success regardless of its row count; in particular a
zero-row sheet is returned as the dataset and the local fallback is not
attempted. -/
theorem C2_zero_rows_amended (body : Payload) (lf : LocalOutcome) (df : Dataset)
    (hp : body.parseSheet = some df) (_hz : df.rows.length = 0) :
    load_data_from_onedrive ⟨.resp 200 body, lf⟩
      = (some df, "OneDrive file loaded successfully") := by
  simp [load_data_from_onedrive, hp]

/-- C2 witness: the amended statement at a concrete zero-row sheet. -/
theorem C2_zero_rows_amended_witness :
    load_data_from_onedrive ⟨.resp 200 ⟨20000, true, some emptySheet⟩, .fileMissing⟩
      = (some emptySheet, "OneDrive file loaded successfully") :=
  C2_zero_rows_amended ⟨20000, true, some emptySheet⟩ .fileMissing emptySheet rfl rfl

/-- C3 counterexample: a 200 response whose 10-byte payload lacks the ZIP
spreadsheet signature is nevertheless accepted and returned as a success
— no minimum-size or signature test exists in the acceptance path. -/
theorem C3_no_validity_checks_counterexample :
    tinyPayload.size = 10
    ∧ tinyPayload.hasZipSignature = false
    ∧ strategyValid (.resp 200 tinyPayload) = some tinySheet
    ∧ load_data_from_onedrive ⟨.resp 200 tinyPayload, .fileMissing⟩
      = (some tinySheet, "OneDrive file loaded successfully") :=
  ⟨rfl, rfl, rfl, rfl⟩

/-- C3 amended: a retrieval result is accepted exactly when the transport
status is 200 and the payload parses with the required sheet; the
payload's size and content signature are never consulted. -/
theorem C3_acceptance_amended (status bodySize : ℕ) (sig : Bool)
    (p : Option Dataset) :
    strategyValid (.resp status ⟨bodySize, sig, p⟩)
      = if status = 200 then p else none := rfl

/-- C4 counterexample: the two terminal failure modes — local file absent
versus local file present but unreadable — produce the identical status
message, so the diagnostic does not distinguish them. -/
theorem C4_single_terminal_message_counterexample :
    load_data_from_onedrive ⟨.exn "ConnectTimeout", .fileMissing⟩
      = (none, "Unable to load data from OneDrive or local file")
    ∧ load_data_from_onedrive
        ⟨.exn "ConnectTimeout", .unreadable "XLRDError: corrupt file"⟩
      = (none, "Unable to load data from OneDrive or local file") :=
  ⟨rfl, rfl⟩

/-- C4 amended: when the remote strategy has failed and the local
fallback also fails — whether the file is missing or present but
unreadable — the resolver returns no dataset together with the single
diagnostic message `"Unable to load data from OneDrive or local file"`,
the same for both terminal failure modes. -/
theorem C4_terminal_failure_amended (t : TransportOutcome) (lf : LocalOutcome)
    (ht : strategyValid t = none)
    (hlf : lf = .fileMissing ∨ ∃ m, lf = .unreadable m) :
    load_data_from_onedrive ⟨t, lf⟩
      = (none, "Unable to load data from OneDrive or local file") := by
  rw [load_invalid_eq t lf ht]
  rcases hlf with h | ⟨m, h⟩ <;> subst h <;> rfl

/-- C4 witness: the amended statement at concrete terminal failures. -/
theorem C4_terminal_failure_amended_witness :
    load_data_from_onedrive ⟨.resp 404 ⟨120, false, none⟩, .fileMissing⟩
      = (none, "Unable to load data from OneDrive or local file") :=
  C4_terminal_failure_amended (.resp 404 ⟨120, false, none⟩) .fileMissing rfl
    (Or.inl rfl)

/-- C5 counterexample: a sharing URL without the `"1drv.ms"` resource
pattern is passed through unchanged — no `download=1` query parameter is
appended before fetching. -/
theorem C5_no_download_param_counterexample :
    strContains "https://example.com/book.xlsx" "1drv.ms" = false
    ∧ convert_onedrive_url "https://example.com/book.xlsx"
      = "https://example.com/book.xlsx"
    ∧ strContains (convert_onedrive_url "https://example.com/book.xlsx")
        "download=1" = false := by
  refine ⟨by decide, ?_, ?_⟩
  · unfold convert_onedrive_url
    rw [show strContains "https://example.com/book.xlsx" "1drv.ms" = false
      from by decide]
    rfl
  · unfold convert_onedrive_url
    rw [show strContains "https://example.com/book.xlsx" "1drv.ms" = false
      from by decide]
    decide

/-- C5 amended: a sharing URL containing `"1drv.ms"` is rewritten by two
literal substring replacements into the API download endpoint form, and
every other URL is returned completely unchanged (no `download=1`
parameter is appended); the conversion helper is moreover not invoked by
the retrieval function, which fetches the configured URL as given. -/
theorem C5_url_conversion_amended (u : String)
    (h : strContains u "1drv.ms" = false) :
    convert_onedrive_url u = u := by
  unfold convert_onedrive_url
  rw [h]
  rfl

/-- C5 witness: the amended statement at a concrete non-matching URL. -/
theorem C5_url_conversion_amended_witness :
    convert_onedrive_url "https://contoso.sharepoint.com/data.xlsx"
      = "https://contoso.sharepoint.com/data.xlsx" :=
  C5_url_conversion_amended "https://contoso.sharepoint.com/data.xlsx" (by decide)

/-! ## Further helper lemmas for the normalization claims -/

/-- Reading a mapped list within bounds. -/
theorem map_getD_lt {α β : Type} (f : α → β) (l : List α) (j : ℕ)
    (dflt : α) (dflt' : β) (h : j < l.length) :
    (l.map f).getD j dflt' = f (l.getD j dflt) := by
  induction l generalizing j with
  | nil => simp at h
  | cons a t ih =>
    cases j with
    | zero => rfl
    | succ n => simpa using ih n (by simpa using h)

/-- Reading a list out of bounds yields the default. -/
theorem getD_out_of_range {α : Type} (l : List α) (j : ℕ) (dflt : α)
    (h : l.length ≤ j) : l.getD j dflt = dflt := by
  induction l generalizing j with
  | nil => rfl
  | cons a t ih =>
    cases j with
    | zero => simp at h
    | succ n => simpa using ih n (by simpa using h)

/-- An in-bounds `getD` read is a member of the list. -/
theorem getD_mem_of_lt {α : Type} (l : List α) (j : ℕ) (dflt : α)
    (h : j < l.length) : l.getD j dflt ∈ l := by
  induction l generalizing j with
  | nil => simp at h
  | cons a t ih =>
    cases j with
    | zero => exact List.mem_cons_self a t
    | succ n => exact List.mem_cons_of_mem a (ih n (by simpa using h))

/-- The column indices touched by a successful normalization are
pairwise distinct, because their column names are. -/
theorem normalize_idx_distinct {h : List String} {iF iS : ℕ}
    {oCS oCE : Option ℕ}
    (hF : colIdxs h "Savings_Finance" = [iF])
    (hS : colIdxs h "Savings_SCP" = [iS])
    (hCS : colIdxs h "Contract Start"
      = (match oCS with | none => [] | some i => [i]))
    (hCE : colIdxs h "Contract End"
      = (match oCE with | none => [] | some i => [i])) :
    iF ≠ iS
    ∧ (∀ i, oCS = some i → i ≠ iF) ∧ (∀ i, oCE = some i → i ≠ iF)
    ∧ (∀ i, oCS = some i → i ≠ iS) ∧ (∀ i, oCE = some i → i ≠ iS)
    ∧ (∀ i j, oCS = some i → oCE = some j → j ≠ i) := by
  refine ⟨colIdxs_disjoint hF hS (by decide), ?_, ?_, ?_, ?_, ?_⟩
  · intro i hi
    rw [hi] at hCS
    exact colIdxs_disjoint hCS hF (by decide)
  · intro i hi
    rw [hi] at hCE
    exact colIdxs_disjoint hCE hF (by decide)
  · intro i hi
    rw [hi] at hCS
    exact colIdxs_disjoint hCS hS (by decide)
  · intro i hi
    rw [hi] at hCE
    exact colIdxs_disjoint hCE hS (by decide)
  · intro i j hi hj
    rw [hi] at hCS
    rw [hj] at hCE
    exact colIdxs_disjoint hCE hCS (by decide)

/-- Reading the first financial column of a transformed row. -/
theorem rowTransform_getD_iF (iF iS : ℕ) (oCS oCE : Option ℕ) (r : List Cell)
    (hFS : iF ≠ iS)
    (hFCS : ∀ i, oCS = some i → i ≠ iF)
    (hFCE : ∀ i, oCE = some i → i ≠ iF)
    (hlen : iF < r.length) :
    (rowTransform iF iS oCS oCE r).getD iF Cell.null
      = toNumericFill0 (r.getD iF Cell.null) := by
  unfold rowTransform
  rw [optUpd_getD_ne toDatetimeCoerce oCE _ iF (fun i hi => (hFCE i hi).symm),
    optUpd_getD_ne toDatetimeCoerce oCS _ iF (fun i hi => (hFCS i hi).symm),
    updAt_getD_ne toNumericFill0 _ iS iF hFS,
    updAt_getD_self toNumericFill0 r iF hlen]

/-- Reading the second financial column of a transformed row. -/
theorem rowTransform_getD_iS (iF iS : ℕ) (oCS oCE : Option ℕ) (r : List Cell)
    (hFS : iF ≠ iS)
    (hSCS : ∀ i, oCS = some i → i ≠ iS)
    (hSCE : ∀ i, oCE = some i → i ≠ iS)
    (hlen : iS < r.length) :
    (rowTransform iF iS oCS oCE r).getD iS Cell.null
      = toNumericFill0 (r.getD iS Cell.null) := by
  unfold rowTransform
  rw [optUpd_getD_ne toDatetimeCoerce oCE _ iS (fun i hi => (hSCE i hi).symm),
    optUpd_getD_ne toDatetimeCoerce oCS _ iS (fun i hi => (hSCS i hi).symm),
    updAt_getD_self toNumericFill0 _ iS (by rw [updAt_length]; exact hlen),
    updAt_getD_ne toNumericFill0 r iF iS (fun hh => hFS hh.symm)]

/-- Reading an untouched column of a transformed row. -/
theorem rowTransform_getD_other (iF iS : ℕ) (oCS oCE : Option ℕ)
    (r : List Cell) (i : ℕ) (hiF : i ≠ iF) (hiS : i ≠ iS)
    (hiCS : ∀ i', oCS = some i' → i ≠ i')
    (hiCE : ∀ i', oCE = some i' → i ≠ i') :
    (rowTransform iF iS oCS oCE r).getD i Cell.null
      = r.getD i Cell.null := by
  unfold rowTransform
  rw [optUpd_getD_ne toDatetimeCoerce oCE _ i hiCE,
    optUpd_getD_ne toDatetimeCoerce oCS _ i hiCS,
    updAt_getD_ne toNumericFill0 _ iS i hiS,
    updAt_getD_ne toNumericFill0 r iF i hiF]

/-- Reading the `Contract Start` column of a transformed row. -/
theorem rowTransform_getD_dateCS (iF iS : ℕ) (oCS oCE : Option ℕ)
    (r : List Cell) (i : ℕ) (hCSi : oCS = some i)
    (hiF : i ≠ iF) (hiS : i ≠ iS)
    (hiCE : ∀ j, oCE = some j → i ≠ j)
    (hlen : i < r.length) :
    (rowTransform iF iS oCS oCE r).getD i Cell.null
      = toDatetimeCoerce (r.getD i Cell.null) := by
  unfold rowTransform
  subst hCSi
  rw [optUpd_getD_ne toDatetimeCoerce oCE _ i hiCE]
  simp only [optUpd]
  rw [updAt_getD_self toDatetimeCoerce _ i
      (by rw [updAt_length, updAt_length]; exact hlen),
    updAt_getD_ne toNumericFill0 _ iS i hiS,
    updAt_getD_ne toNumericFill0 r iF i hiF]

/-! ## Normalization claim theorems -/

/-- C6: a raw dataset missing the finance-delta source column — so that
no canonical `Savings_Finance` column exists after renaming — makes the
normalization block raise a hard error (the pandas KeyError embodying
the column-contract violation) rather than silently defaulting the
column: the absence is surfaced to the caller, unlike value-level
coercion failures, which are folded into the data. -/
theorem C6_missing_finance_column_raises (d : Dataset)
    (h : "Savings_Finance" ∉ d.header.map renameCol) :
    normalize d = .error "KeyError: Savings_Finance" := by
  have hc : colIdxs (d.header.map renameCol) "Savings_Finance" = [] :=
    (colIdxs_eq_nil _ _).2 h
  simp [normalize, renameColumns, coerceNumericCol, hc, Bind.bind, Except.bind]

/-- C6 witness: a concrete dataset lacking the finance column errors. -/
theorem C6_missing_finance_column_raises_witness :
    normalize ⟨["Project", "Difference (PA) -SCP"], [[Cell.str "p", Cell.num 2]]⟩
      = .error "KeyError: Savings_Finance" :=
  C6_missing_finance_column_raises
    ⟨["Project", "Difference (PA) -SCP"], [[Cell.str "p", Cell.num 2]]⟩
    (by decide)

/-- C7: on a rectangular dataset carrying both financial columns
(uniquely, after renaming), normalization succeeds and rewrites each
cell of the two canonical financial columns by `toNumericFill0`, which
leaves every already-numeric value unchanged, turns every value whose
conversion fails (non-numeric string, date object, missing value) into
exactly `Cell.num 0`, and always yields a numeric cell — never a null —
while no row is dropped. -/
theorem C7_numeric_coercion_policy (d d' : Dataset) (iF iS : ℕ)
    (oCS oCE : Option ℕ)
    (hF : colIdxs (d.header.map renameCol) "Savings_Finance" = [iF])
    (hS : colIdxs (d.header.map renameCol) "Savings_SCP" = [iS])
    (hCS : colIdxs (d.header.map renameCol) "Contract Start"
      = (match oCS with | none => [] | some i => [i]))
    (hCE : colIdxs (d.header.map renameCol) "Contract End"
      = (match oCE with | none => [] | some i => [i]))
    (hrect : ∀ r ∈ d.rows, r.length = d.header.length)
    (hok : normalize d = .ok d') :
    d'.rows.length = d.rows.length
    ∧ (∀ j, j < d.rows.length →
        cellAt d' j iF = toNumericFill0 (cellAt d j iF)
        ∧ cellAt d' j iS = toNumericFill0 (cellAt d j iS))
    ∧ (∀ v, toNumericFill0 (Cell.num v) = Cell.num v)
    ∧ (∀ c, numConvFails c = true → toNumericFill0 c = Cell.num 0)
    ∧ (∀ c, ∃ v, toNumericFill0 c = Cell.num v) := by
  obtain ⟨hFS, hFCS, hFCE, hSCS, hSCE, hCSCE⟩ :=
    normalize_idx_distinct hF hS hCS hCE
  rw [normalize_eq_ok d iF iS oCS oCE hF hS hCS hCE] at hok
  obtain rfl : d' = ⟨d.header.map renameCol,
      d.rows.map (rowTransform iF iS oCS oCE)⟩ := (Except.ok.inj hok).symm
  refine ⟨by simp, ?_, fun v => rfl, ?_, ?_⟩
  · intro j hj
    have hrlen : (d.rows.getD j []).length = d.header.length :=
      hrect _ (getD_mem_of_lt d.rows j [] hj)
    have hiF : iF < (d.rows.getD j []).length := by
      have := colIdxs_singleton_lt hF
      rw [List.length_map] at this
      omega
    have hiS : iS < (d.rows.getD j []).length := by
      have := colIdxs_singleton_lt hS
      rw [List.length_map] at this
      omega
    constructor
    · unfold cellAt
      rw [show (⟨d.header.map renameCol,
          d.rows.map (rowTransform iF iS oCS oCE)⟩ : Dataset).rows
          = d.rows.map (rowTransform iF iS oCS oCE) from rfl,
        map_getD_lt _ _ j [] [] hj]
      exact rowTransform_getD_iF iF iS oCS oCE _ hFS hFCS hFCE hiF
    · unfold cellAt
      rw [show (⟨d.header.map renameCol,
          d.rows.map (rowTransform iF iS oCS oCE)⟩ : Dataset).rows
          = d.rows.map (rowTransform iF iS oCS oCE) from rfl,
        map_getD_lt _ _ j [] [] hj]
      exact rowTransform_getD_iS iF iS oCS oCE _ hFS hSCS hSCE hiS
  · intro c hc
    cases c with
    | num v => simp [numConvFails] at hc
    | str s =>
      have hp : parseNumStr s = none := by
        simpa [numConvFails, Option.isNone_iff_eq_none] using hc
      simp [toNumericFill0, hp]
    | date dd => rfl
    | null => rfl
  · intro c
    cases c with
    | num v => exact ⟨v, rfl⟩
    | str s =>
      cases hp : parseNumStr s with
      | none => exact ⟨0, by simp [toNumericFill0, hp]⟩
      | some v => exact ⟨v, by simp [toNumericFill0, hp]⟩
    | date dd => exact ⟨0, rfl⟩
    | null => exact ⟨0, rfl⟩

/-- C7 witness: instantiated on the sample dataset, at the row holding a
non-numeric string and a missing value in the financial columns. -/
theorem C7_numeric_coercion_policy_witness :
    sampleNormalized.rows.length = sampleRaw.rows.length
    ∧ cellAt sampleNormalized 1 1 = toNumericFill0 (cellAt sampleRaw 1 1)
    ∧ cellAt sampleNormalized 1 2 = toNumericFill0 (cellAt sampleRaw 1 2) := by
  have h := C7_numeric_coercion_policy sampleRaw sampleNormalized 1 2 (some 3)
    none (by decide) (by decide) (by decide) (by decide) (by decide) rfl
  exact ⟨h.1, (h.2.1 1 (by decide)).1, (h.2.1 1 (by decide)).2⟩

/-- C8: a successful normalization of a rectangular dataset preserves
the exact row count and row order (row `j` of the output is computed
from row `j` of the input; nothing is filtered, deduplicated or sorted),
changes only column identity — the header is exactly the renamed header
— and cell types, leaves every column other than the two financial
columns and the present date columns untouched, coerces a present
`Contract Start` column elementwise by `toDatetimeCoerce` — which turns
unparseable date strings and missing values into the null marker, not an
epoch default — and leaves absent date columns absent. -/
theorem C8_frame_preservation (d d' : Dataset) (iF iS : ℕ)
    (oCS oCE : Option ℕ)
    (hF : colIdxs (d.header.map renameCol) "Savings_Finance" = [iF])
    (hS : colIdxs (d.header.map renameCol) "Savings_SCP" = [iS])
    (hCS : colIdxs (d.header.map renameCol) "Contract Start"
      = (match oCS with | none => [] | some i => [i]))
    (hCE : colIdxs (d.header.map renameCol) "Contract End"
      = (match oCE with | none => [] | some i => [i]))
    (hrect : ∀ r ∈ d.rows, r.length = d.header.length)
    (hok : normalize d = .ok d') :
    d'.rows.length = d.rows.length
    ∧ (∀ j, d'.rows.get? j
        = (d.rows.get? j).map (rowTransform iF iS oCS oCE))
    ∧ d'.header = d.header.map renameCol
    ∧ (oCS = none → "Contract Start" ∉ d'.header)
    ∧ (∀ j i, i ≠ iF → i ≠ iS → (∀ i', oCS = some i' → i ≠ i') →
        (∀ i', oCE = some i' → i ≠ i') → cellAt d' j i = cellAt d j i)
    ∧ (∀ i, oCS = some i → ∀ j, j < d.rows.length →
        cellAt d' j i = toDatetimeCoerce (cellAt d j i))
    ∧ (∀ s, parseDateStr s = none →
        toDatetimeCoerce (Cell.str s) = Cell.null)
    ∧ toDatetimeCoerce Cell.null = Cell.null := by
  obtain ⟨hFS, hFCS, hFCE, hSCS, hSCE, hCSCE⟩ :=
    normalize_idx_distinct hF hS hCS hCE
  rw [normalize_eq_ok d iF iS oCS oCE hF hS hCS hCE] at hok
  obtain rfl : d' = ⟨d.header.map renameCol,
      d.rows.map (rowTransform iF iS oCS oCE)⟩ := (Except.ok.inj hok).symm
  refine ⟨by simp, fun j => ?_, rfl, fun h0 => ?_, ?_, ?_,
    fun s hs => by simp [toDatetimeCoerce, hs], rfl⟩
  · exact List.get?_map _ _ _
  · rw [h0] at hCS
    exact (colIdxs_eq_nil _ _).1 hCS
  · intro j i hiF hiS hiCS hiCE
    unfold cellAt
    by_cases hj : j < d.rows.length
    · rw [show (⟨d.header.map renameCol,
          d.rows.map (rowTransform iF iS oCS oCE)⟩ : Dataset).rows
          = d.rows.map (rowTransform iF iS oCS oCE) from rfl,
        map_getD_lt _ _ j [] [] hj]
      exact rowTransform_getD_other iF iS oCS oCE _ i hiF hiS hiCS hiCE
    · rw [show (⟨d.header.map renameCol,
          d.rows.map (rowTransform iF iS oCS oCE)⟩ : Dataset).rows
          = d.rows.map (rowTransform iF iS oCS oCE) from rfl,
        getD_out_of_range _ j [] (by simp; omega),
        getD_out_of_range d.rows j [] (by omega)]
  · intro i hi j hj
    have hrlen : (d.rows.getD j []).length = d.header.length :=
      hrect _ (getD_mem_of_lt d.rows j [] hj)
    have hilt : i < (d.rows.getD j []).length := by
      rw [hi] at hCS
      have := colIdxs_singleton_lt hCS
      rw [List.length_map] at this
      omega
    unfold cellAt
    rw [show (⟨d.header.map renameCol,
        d.rows.map (rowTransform iF iS oCS oCE)⟩ : Dataset).rows
        = d.rows.map (rowTransform iF iS oCS oCE) from rfl,
      map_getD_lt _ _ j [] [] hj]
    exact rowTransform_getD_dateCS iF iS oCS oCE _ i hi
      (hFCS i hi) (hSCS i hi) (fun j' hj' => (hCSCE i j' hi hj').symm) hilt

/-- C8 witness: instantiated on the sample dataset — the text column is
untouched on the row whose date is unparseable, and the `Contract Start`
cell there is coerced to null. -/
theorem C8_frame_preservation_witness :
    sampleNormalized.rows.length = sampleRaw.rows.length
    ∧ sampleNormalized.header = sampleRaw.header.map renameCol
    ∧ cellAt sampleNormalized 1 0 = cellAt sampleRaw 1 0
    ∧ cellAt sampleNormalized 1 3 = toDatetimeCoerce (cellAt sampleRaw 1 3) := by
  have h := C8_frame_preservation sampleRaw sampleNormalized 1 2 (some 3) none
    (by decide) (by decide) (by decide) (by decide) (by decide) rfl
  refine ⟨h.1, h.2.2.1, ?_, ?_⟩
  · refine h.2.2.2.2.1 1 0 (by decide) (by decide) ?_ ?_
    · intro i' hi'
      injection hi' with hh
      omega
    · intro i' hi'
      cases hi'
  · exact h.2.2.2.2.2.1 3 rfl 1 (by decide)

/-- C9: the normalization block is idempotent — applied to any dataset
it has itself produced, it returns that dataset unchanged: renaming is a
no-op on canonical column names, numeric coercion is a no-op on the
already-numeric financial columns, and date coercion is a no-op on
already-date-typed (or null) date cells. -/
theorem C9_normalize_idempotent (d d' : Dataset) (iF iS : ℕ)
    (oCS oCE : Option ℕ)
    (hF : colIdxs (d.header.map renameCol) "Savings_Finance" = [iF])
    (hS : colIdxs (d.header.map renameCol) "Savings_SCP" = [iS])
    (hCS : colIdxs (d.header.map renameCol) "Contract Start"
      = (match oCS with | none => [] | some i => [i]))
    (hCE : colIdxs (d.header.map renameCol) "Contract End"
      = (match oCE with | none => [] | some i => [i]))
    (hok : normalize d = .ok d') :
    normalize d' = .ok d' := by
  obtain ⟨hFS, hFCS, hFCE, hSCS, hSCE, hCSCE⟩ :=
    normalize_idx_distinct hF hS hCS hCE
  rw [normalize_eq_ok d iF iS oCS oCE hF hS hCS hCE] at hok
  obtain rfl : d' = ⟨d.header.map renameCol,
      d.rows.map (rowTransform iF iS oCS oCE)⟩ := (Except.ok.inj hok).symm
  have hcomp : renameCol ∘ renameCol = renameCol := funext renameCol_idem
  have hmap : (d.header.map renameCol).map renameCol
      = d.header.map renameCol := by
    rw [List.map_map, hcomp]
  have hEq : ∀ name, colIdxs ((d.header.map renameCol).map renameCol) name
      = colIdxs (d.header.map renameCol) name := fun name => by rw [hmap]
  have hTT : (rowTransform iF iS oCS oCE ∘ rowTransform iF iS oCS oCE)
      = rowTransform iF iS oCS oCE :=
    funext fun r =>
      rowTransform_idem iF iS oCS oCE hFS hFCS hFCE hSCS hSCE hCSCE r
  have h2 := normalize_eq_ok
    ⟨d.header.map renameCol, d.rows.map (rowTransform iF iS oCS oCE)⟩
    iF iS oCS oCE
    ((hEq _).trans hF) ((hEq _).trans hS)
    ((hEq _).trans hCS) ((hEq _).trans hCE)
  rw [h2, hmap, List.map_map, hTT]

/-- C9 witness: normalizing the already-normalized sample dataset
returns it unchanged. -/
theorem C9_normalize_idempotent_witness :
    normalize sampleNormalized = .ok sampleNormalized :=
  C9_normalize_idempotent sampleRaw sampleNormalized 1 2 (some 3) none
    (by decide) (by decide) (by decide) (by decide) rfl

/-- C10: on a dataset whose unique `Contract Start` column contains at
least one date, the default filter value exists and equals the column
minimum (the widget's default, with the user changing nothing), and the
applied filter `Contract Start >= bound` excludes every row whose
`Contract Start` cell is the null marker — rows with unparseable or
missing start dates are silently dropped from the filtered data. -/
theorem C10_default_filter_drops_null_starts (d : Dataset) (i : ℕ)
    (_hcol : colIdxs d.header "Contract Start" = [i])
    (hne : dateVals (startCol d i) ≠ []) :
    (∃ b, start_date_filter d i = some b ∧ seriesMin (startCol d i) = some b)
    ∧ ∀ r ∈ (applyStartDateFilter d i).rows, r.getD i Cell.null ≠ Cell.null := by
  obtain ⟨x, xs, hx⟩ := List.exists_cons_of_ne_nil hne
  have hmin : seriesMin (startCol d i) = some (xs.foldl min x) := by
    unfold seriesMin
    rw [hx]
    rfl
  have hmax : seriesMax (startCol d i) = some (xs.foldl max x) := by
    unfold seriesMax
    rw [hx]
    rfl
  have hsdf : start_date_filter d i = some (xs.foldl min x) := by
    unfold start_date_filter
    rw [hmin, hmax]
  refine ⟨⟨_, hsdf, hmin⟩, ?_⟩
  intro r hr hnull
  simp only [applyStartDateFilter, hsdf] at hr
  have hge := (List.mem_filter.1 hr).2
  rw [hnull] at hge
  simp [cellGe] at hge

/-- C10 witness: on the concrete sample column the default bound is the
minimum date 5, obtained through the filter theorem. -/
theorem C10_default_filter_drops_null_starts_witness :
    start_date_filter filterSample 0 = some 5 := by
  obtain ⟨⟨b, hb, hmin⟩, -⟩ :=
    C10_default_filter_drops_null_starts filterSample 0 rfl (by decide)
  have h5 : seriesMin (startCol filterSample 0) = some 5 := rfl
  rw [hmin] at h5
  rw [hb, Option.some.inj h5]

end App
